import Mathlib

/-!
Shallow embedding of the exit-status translation protocol, the rooted-value
lifecycle and the error translators of the Emacs dynamic-module bridge
(src/src/env.rs and src/src/error.rs), with proofs of the specification claims.

The host (the Emacs process behind the callback table) is modelled as an
explicit `HostState`: the pending non-local-exit word, a heap of values the
host allocates on behalf of the bridge, logs of the release and intern calls
issued through the table, and a schedule that can inject host-side failures
into fallible calls.  A Rust `panic!` / abort is modelled by returning `none`.
-/

set_option autoImplicit false

/-- Exit-status code for a normal return (`emacs_funcall_exit_return`). -/
def RETURN : Nat := 0

/-- Exit-status code for a pending signal (`emacs_funcall_exit_signal`). -/
def SIGNAL : Nat := 1

/-- Exit-status code for a pending throw (`emacs_funcall_exit_throw`). -/
def THROW : Nat := 2

/-- A value issued by the host: either an interned symbol, or a host-heap
object identified by its allocation index.  Native code treats these as
identifiers whose meaning lives on the host side. -/
inductive EmacsValue where
  | symv (name : String)
  | obj (i : Nat)
  deriving DecidableEq, Repr

/-- The symbol `nil`. -/
def nilValue : EmacsValue := .symv "nil"

/-- The host's pending non-local-exit word: a status code and the two carried
values (symbol and data for a signal, tag and value for a throw). -/
@[ext]
structure PendingExit where
  status : Nat
  a : EmacsValue
  b : EmacsValue
  deriving DecidableEq, Repr

/-- Host-heap objects that the modelled host calls can allocate. -/
inductive LispObj where
  | str (s : String)
  | listv (elems : List EmacsValue)
  | gref (v : EmacsValue)
  deriving DecidableEq, Repr

/-- The host's state across boundary calls: the pending-exit word, the heap,
the log of release calls issued (`freeCalls`) and of those the host acted upon
(`freed`), the log of intern calls, and a failure-injection schedule: the head
of `failSchedule` decides whether the next fallible host call raises, in which
case the host installs `failExit` as the pending exit. -/
@[ext]
structure HostState where
  pending : PendingExit
  heap : List LispObj
  freeCalls : List EmacsValue
  freed : List EmacsValue
  internCalls : List String
  failSchedule : List Bool
  failExit : PendingExit
  deriving DecidableEq, Repr

/-- The host primitive `non_local_exit_get`: reads the pending-exit word. -/
def non_local_exit_get (s : HostState) : Nat × EmacsValue × EmacsValue :=
  (s.pending.status, s.pending.a, s.pending.b)

/-- The host primitive `non_local_exit_clear`: resets the status code to
normal-return, leaving the two value slots as they were. -/
def non_local_exit_clear (s : HostState) : HostState :=
  { s with pending := { s.pending with status := RETURN } }

/-- The host primitive `non_local_exit_signal` (a no-op when an exit is already
pending, as in the host); the Rust wrapper returns the symbol. -/
def non_local_exit_signal (s : HostState) (symbol data : EmacsValue) :
    EmacsValue × HostState :=
  if s.pending.status = RETURN then
    (symbol, { s with pending := ⟨SIGNAL, symbol, data⟩ })
  else (symbol, s)

/-- The host primitive `non_local_exit_throw` (a no-op when an exit is already
pending); the Rust wrapper returns the tag. -/
def non_local_exit_throw (s : HostState) (tag value : EmacsValue) :
    EmacsValue × HostState :=
  if s.pending.status = RETURN then
    (tag, { s with pending := ⟨THROW, tag, value⟩ })
  else (tag, s)

/-- The host primitive `free_global_ref`: a release call.  The host ignores
module calls while an exit is pending (which is why `Drop for Env` clears the
exit first), so `freeCalls` logs the call as issued while `freed` logs it as
acted upon. -/
def free_global_ref (s : HostState) (v : EmacsValue) : HostState :=
  { s with
    freeCalls := s.freeCalls ++ [v],
    freed := if s.pending.status = RETURN then s.freed ++ [v] else s.freed }

/-- A fallible host call that allocates an object (string construction, list
construction): it bails out while an exit is pending, and otherwise either
raises `failExit` (per the failure schedule) or allocates a fresh value. -/
def rawAlloc (s : HostState) (o : LispObj) : EmacsValue × HostState :=
  if s.pending.status = RETURN then
    match s.failSchedule with
    | true :: rest => (nilValue, { s with failSchedule := rest, pending := s.failExit })
    | false :: rest =>
      (.obj s.heap.length, { s with failSchedule := rest, heap := s.heap ++ [o] })
    | [] => (.obj s.heap.length, { s with heap := s.heap ++ [o] })
  else (nilValue, s)

/-- The host's intern call: logs the call and produces the interned symbol;
fallible like `rawAlloc`. -/
def rawIntern (s : HostState) (name : String) : EmacsValue × HostState :=
  if s.pending.status = RETURN then
    match s.failSchedule with
    | true :: rest =>
      (nilValue,
       { s with failSchedule := rest, internCalls := s.internCalls ++ [name],
                pending := s.failExit })
    | false :: rest =>
      (.symv name,
       { s with failSchedule := rest, internCalls := s.internCalls ++ [name] })
    | [] => (.symv name, { s with internCalls := s.internCalls ++ [name] })
  else (nilValue, s)

/-- Rust `ErrorKind` (error.rs): the closed taxonomy of native errors. -/
inductive ErrorKind where
  | Signal (symbol data : EmacsValue)
  | Throw (tag value : EmacsValue)
  | WrongTypeUserPtr (expected : String)
  deriving DecidableEq, Repr

/-- The `Display` rendering of an `ErrorKind`, from its `#[error(...)]`
attributes; the debug rendering of the two carried values is abstracted by
`reprStr`.  Only the `WrongTypeUserPtr` line (`"expected: {expected}"`) is
consumed by the translators. -/
def ErrorKind.display : ErrorKind → String
  | .Signal s d => "Non-local signal: symbol=" ++ reprStr s ++ " data=" ++ reprStr d
  | .Throw t v => "Non-local throw: tag=" ++ reprStr t ++ " value=" ++ reprStr v
  | .WrongTypeUserPtr expected => "expected: " ++ expected

/-- The generic recoverable error type (`anyhow::Error`): either one of the
known `ErrorKind`s, the `NulError` produced by `CString::new`, or some other
boxed error carrying its `Display` rendering. -/
inductive Error where
  | known (k : ErrorKind)
  | nulError (pos : Nat)
  | other (description : String)
  deriving DecidableEq, Repr

/-- The `Display` rendering of an `Error`. -/
def Error.display : Error → String
  | .known k => k.display
  | .nulError pos => "nul byte found in provided data at position: " ++ toString pos
  | .other d => d

/-- Rust `CString::new`: fails with a `NulError` exactly when the name holds an
interior NUL byte. -/
def cstringNew (name : String) : Except Error String :=
  match name.toList.findIdx? (fun c => c == Char.ofNat 0) with
  | some i => .error (.nulError i)
  | none => .ok name

/-- Rust `Env` (env.rs): the raw environment pointer (kept as a bare identifier) and
the rooted-value registry; `none` means rooting is disabled. -/
@[ext]
structure Env where
  raw : Nat
  «protected» : Option (List EmacsValue)
  deriving DecidableEq, Repr

/-- Rust `Env::new` (env.rs): consults the one-shot `HAS_FIXED_GC_BUG_31238` latch
(`none` models a still-undetermined `OnceCell`, read through
`get().unwrap_or(&false)`) and enables rooting with an empty registry unless
the latch is determined `true`. -/
def Env.new (raw : Nat) (latch : Option Bool) : Env :=
  { raw, «protected» := if latch.getD false then none else some [] }

/-- Rust `Env::handle_exit` (error.rs): the inbound translator.  Reads the pending
exit; on normal-return it passes the call's value through, on a pending signal
or throw it clears the status and fails with the captured values, and on any
other status it hits the `panic!` branch, modelled as `none`. -/
def handle_exit {α : Type} (s : HostState) (result : α) :
    Option (Except Error α × HostState) :=
  if s.pending.status = RETURN then some (.ok result, s)
  else if s.pending.status = SIGNAL then
    some (.error (.known (.Signal s.pending.a s.pending.b)), non_local_exit_clear s)
  else if s.pending.status = THROW then
    some (.error (.known (.Throw s.pending.a s.pending.b)), non_local_exit_clear s)
  else none

/-- A raw allocating call followed by the inbound translator: the
`unsafe_raw_call_value!` pattern used by `into_lisp` on strings and by
`Env::list`. -/
def callAlloc (s : HostState) (o : LispObj) :
    Option (Except Error EmacsValue × HostState) :=
  let r := rawAlloc s o
  handle_exit r.2 r.1

/-- The pre-declared generic catch-all error symbol. -/
def rust_error : EmacsValue := .symv "rust-error"

/-- The pre-declared native-panic error symbol. -/
def rust_panic : EmacsValue := .symv "rust-panic"

/-- The pre-declared wrong-type error symbol. -/
def rust_wrong_type_user_ptr : EmacsValue := .symv "rust-wrong-type-user-ptr"

/-- Rust `Env::signal_internal` (error.rs): builds the message string and the
one-element data list through the handle (each call checked by the inbound
translator), then records the signal.  `none` propagates an inner abort. -/
def signal_internal (s : HostState) (symbol : EmacsValue) (message : String) :
    Option (Except Error EmacsValue × HostState) :=
  match callAlloc s (.str message) with
  | none => none
  | some (.error e, s1) => some (.error e, s1)
  | some (.ok msgV, s1) =>
    match callAlloc s1 (.listv [msgV]) with
    | none => none
    | some (.error e, s2) => some (.error e, s2)
    | some (.ok dataV, s2) =>
      let r := non_local_exit_signal s2 symbol dataV
      some (.ok r.1, r.2)

/-- Rust `Env::handle_known` (error.rs): re-raises a known error through the host's
own signal/throw primitive; for `WrongTypeUserPtr` it signals the pre-declared
wrong-type symbol with the rendered message, and the `unwrap_or_else` `panic!`
on a failed raise is modelled as `none`. -/
def handle_known (s : HostState) (err : ErrorKind) : Option (EmacsValue × HostState) :=
  match err with
  | .Signal symbol data => some (non_local_exit_signal s symbol data)
  | .Throw tag value => some (non_local_exit_throw s tag value)
  | .WrongTypeUserPtr expected =>
    match signal_internal s rust_wrong_type_user_ptr
        (ErrorKind.display (.WrongTypeUserPtr expected)) with
    | some (.ok v, s1) => some (v, s1)
    | _ => none

/-- Rust `Env::maybe_exit` (error.rs): the outbound translator.  `Ok` passes the raw
value through; a known error goes to `handle_known`; any other error is
signalled under the generic catch-all symbol with its rendered description,
and a failure of that raise hits the `unwrap_or_else` `panic!` (`none`). -/
def maybe_exit (s : HostState) (result : Except Error EmacsValue) :
    Option (EmacsValue × HostState) :=
  match result with
  | .ok v => some (v, s)
  | .error (.known k) => handle_known s k
  | .error e =>
    match signal_internal s rust_error e.display with
    | some (.ok v, s1) => some (v, s1)
    | _ => none

/-- The payload of a caught native unwind (`Box<dyn Any>`): a `String`, a
re-thrown `ErrorKind`, or anything else together with its debug rendering. -/
inductive PanicPayload where
  | str (s : String)
  | errorKind (k : ErrorKind)
  | otherPayload (debugRepr : String)
  deriving DecidableEq, Repr

/-- Rust `Env::handle_panic` (error.rs): the panic-outbound translator.  A `String`
payload becomes the message; an `ErrorKind` payload is re-raised through
`handle_known`; anything else falls back to its debug rendering.  The message
is signalled under the native-panic symbol; if that raise itself fails, the
code logs the failure and hands `nil` back to the host. -/
def handle_panic (s : HostState) (result : Except PanicPayload EmacsValue) :
    Option (EmacsValue × HostState) :=
  match result with
  | .ok v => some (v, s)
  | .error (.errorKind k) => handle_known s k
  | .error payload =>
    let m := match payload with
      | .str msg => msg
      | .otherPayload d => d
      | .errorKind _ => ""
    match signal_internal s rust_panic m with
    | some (.ok v, s1) => some (v, s1)
    | some (.error _, s1) => some (nilValue, s1)
    | none => none

/-- Rust `Env::intern` (env.rs): converts the name to a C string — an encoding
error fails before any host call — then makes one intern call through the
callback table and applies the inbound translator. -/
def Env.intern (env : Env) (s : HostState) (name : String) :
    Option (Except Error EmacsValue × HostState) :=
  match cstringNew name with
  | .error e => some (.error e, s)
  | .ok cname =>
    let r := rawIntern s cname
    let _ := env
    handle_exit r.2 r.1

/-- Rust `Drop for Env` (env.rs): when rooting is active, capture the pending-exit
word, clear a pending signal/throw, release every registered identifier, then
re-raise the captured signal/throw if one was pending.  On any other status it
neither clears nor restores and never aborts. -/
def Env.drop (env : Env) (s : HostState) : HostState :=
  match env.«protected» with
  | none => s
  | some l =>
    let status := s.pending.status
    let a := s.pending.a
    let b := s.pending.b
    let s1 := if status = SIGNAL ∨ status = THROW then non_local_exit_clear s else s
    let s2 := l.foldl free_global_ref s1
    if status = SIGNAL then (non_local_exit_signal s2 a b).2
    else if status = THROW then (non_local_exit_throw s2 a b).2
    else s2

/-- Modelled from the spec: the rooting operation (spec §4.2 `root`; the
`Value::protect` source is not among the provided files).  It invokes the
host's new-reference call, appends the resulting identifier to the registry
and returns it; it is a no-op pass-through when rooting is inactive. -/
def Env.root (env : Env) (s : HostState) (v : EmacsValue) :
    EmacsValue × Env × HostState :=
  match env.«protected» with
  | none => (v, env, s)
  | some l =>
    let g : EmacsValue := .obj s.heap.length
    (g, { env with «protected» := some (l ++ [g]) },
     { s with heap := s.heap ++ [.gref v] })

/-- Modelled from the spec: `GlobalRef::free` is not among the provided files;
it releases the reference through the handle's release call and applies the
inbound translator to the outcome. -/
def globalRefFree (s : HostState) (v : EmacsValue) :
    Option (Except Error Unit × HostState) :=
  handle_exit (free_global_ref s v) ()

/-- Rust `Env::free_last_protected` (env.rs, test-only): releases the host
reference for the last registered identifier without removing it from the
registry; `none` models the `unwrap` panic on an empty registry. -/
def Env.free_last_protected (env : Env) (s : HostState) :
    Option (Except Error Unit × Env × HostState) :=
  match env.«protected» with
  | none => some (.ok (), env, s)
  | some l =>
    match l.getLast? with
    | none => none
    | some last =>
      match globalRefFree s last with
      | none => none
      | some (r, s1) => some (r, env, s1)

/-- A clean host state: no exit pending, empty heap and logs, no injected
failures; the failure exit used when one is injected is a host signal. -/
def cleanState : HostState :=
  ⟨⟨RETURN, nilValue, nilValue⟩, [], [], [], [], [],
   ⟨SIGNAL, .symv "error", nilValue⟩⟩

/-- A host state with a pending signal carrying two sample values. -/
def signalState : HostState :=
  ⟨⟨SIGNAL, .symv "wrong-type-argument", .obj 5⟩, [], [], [], [], [],
   ⟨SIGNAL, .symv "error", nilValue⟩⟩

/-- Releasing a rooted identifier never touches the pending-exit word. -/
theorem free_global_ref_pending (s : HostState) (v : EmacsValue) :
    (free_global_ref s v).pending = s.pending := rfl

/-- Releasing a whole registry while no exit is pending appends every
identifier to both release logs and changes nothing else. -/
theorem foldl_free_of_return (l : List EmacsValue) (s : HostState)
    (hp : s.pending.status = RETURN) :
    l.foldl free_global_ref s =
      { s with freeCalls := s.freeCalls ++ l, freed := s.freed ++ l } := by
  induction l generalizing s with
  | nil => simp
  | cons v rest ih =>
    rw [List.foldl_cons, ih _ (by simp [free_global_ref, hp])]
    simp [free_global_ref, hp]

/-- Releasing a whole registry while an exit is pending logs every release
call as issued, but the host acts on none of them. -/
theorem foldl_free_of_pending (l : List EmacsValue) (s : HostState)
    (hp : s.pending.status ≠ RETURN) :
    l.foldl free_global_ref s = { s with freeCalls := s.freeCalls ++ l } := by
  induction l generalizing s with
  | nil => simp
  | cons v rest ih =>
    rw [List.foldl_cons, ih _ (by simpa [free_global_ref] using hp)]
    simp [free_global_ref, hp]

/-- C1: the inbound translator returns the call's value unchanged on a normal
return; on a pending signal (resp. throw) it clears the status and fails with
a `Signal` (resp. `Throw`) error holding exactly the two pending values, so
that a fresh status check reads normal-return and a second `handle_exit` on
the same call returns `Ok` rather than re-reporting the error. -/
theorem handle_exit_consumes_pending_exit {α : Type} (s : HostState) (x : α) :
    (s.pending.status = RETURN → handle_exit s x = some (.ok x, s)) ∧
    (s.pending.status = SIGNAL →
      handle_exit s x =
        some (.error (.known (.Signal s.pending.a s.pending.b)), non_local_exit_clear s) ∧
      (non_local_exit_clear s).pending.status = RETURN ∧
      handle_exit (non_local_exit_clear s) x = some (.ok x, non_local_exit_clear s)) ∧
    (s.pending.status = THROW →
      handle_exit s x =
        some (.error (.known (.Throw s.pending.a s.pending.b)), non_local_exit_clear s) ∧
      (non_local_exit_clear s).pending.status = RETURN ∧
      handle_exit (non_local_exit_clear s) x = some (.ok x, non_local_exit_clear s)) := by
  refine ⟨fun h => ?_, fun h => ?_, fun h => ?_⟩ <;>
    simp [handle_exit, non_local_exit_clear, h, RETURN, SIGNAL, THROW]

/-- C1 witness: the signal case at a concrete state, including the second
check reading `Ok`. -/
theorem handle_exit_consumes_pending_exit_witness :
    handle_exit signalState (7 : Nat) =
      some (.error (.known (.Signal (.symv "wrong-type-argument") (.obj 5))),
            non_local_exit_clear signalState) ∧
    (non_local_exit_clear signalState).pending.status = RETURN ∧
    handle_exit (non_local_exit_clear signalState) (7 : Nat) =
      some (.ok 7, non_local_exit_clear signalState) :=
  (handle_exit_consumes_pending_exit signalState 7).2.1 rfl

/-- C7: a handle built after the collector-bug latch is determined `true` has
rooting disabled; one built when the latch is `false` or still undetermined
has rooting enabled with an empty registry. -/
theorem new_env_rooting_policy (raw : Nat) (latch : Option Bool) :
    (latch = some true → (Env.new raw latch).«protected» = none) ∧
    (latch = some false ∨ latch = none →
      (Env.new raw latch).«protected» = some []) := by
  constructor
  · rintro rfl; rfl
  · rintro (rfl | rfl) <;> rfl

/-- C7 witness: both latch outcomes and the undetermined default, concretely. -/
theorem new_env_rooting_policy_witness :
    (Env.new 0 (some true)).«protected» = none ∧
    (Env.new 1 (some false)).«protected» = some [] ∧
    (Env.new 2 none).«protected» = some [] :=
  ⟨(new_env_rooting_policy 0 (some true)).1 rfl,
   (new_env_rooting_policy 1 (some false)).2 (Or.inl rfl),
   (new_env_rooting_policy 2 none).2 (Or.inr rfl)⟩

/-- C8: `intern` on a name with an interior NUL byte fails with the encoding
error before any callback-table call is made — the host state, in particular
the intern-call log, is untouched; on a convertible name it makes exactly one
intern call and applies the inbound translation, succeeding with the interned
symbol. -/
theorem intern_encoding_check (env : Env) (s : HostState) (name : String) (i : Nat)
    (hp : s.pending.status = RETURN) (hf : s.failSchedule = []) :
    (name.toList.findIdx? (fun c => c == Char.ofNat 0) = some i →
      Env.intern env s name = some (.error (.nulError i), s)) ∧
    (name.toList.findIdx? (fun c => c == Char.ofNat 0) = none →
      Env.intern env s name =
        some (.ok (.symv name),
          { s with internCalls := s.internCalls ++ [name] })) := by
  constructor <;> intro h <;>
    simp only [String.toList] at h <;>
    simp [Env.intern, cstringNew, h, rawIntern, handle_exit, hp, hf]

/-- C8 witness: a name holding a NUL byte fails without touching the host
state, and a plain name makes exactly one intern call. -/
theorem intern_encoding_check_witness :
    Env.intern (Env.new 0 none) cleanState "a\x00b" =
      some (.error (.nulError 1), cleanState) ∧
    Env.intern (Env.new 0 none) cleanState "foo" =
      some (.ok (.symv "foo"), { cleanState with internCalls := ["foo"] }) :=
  ⟨(intern_encoding_check (Env.new 0 none) cleanState "a\x00b" 1 rfl rfl).1 (by decide),
   (intern_encoding_check (Env.new 0 none) cleanState "foo" 1 rfl rfl).2 (by decide)⟩

/-- C2: teardown with rooting active preserves a pending signal/throw exactly:
it clears the status, releases every registered identifier (both release logs
grow by the whole registry), then re-raises the same status with the same two
saved values, so after teardown the caller observes exactly the pending word
from before; with no exit pending it releases everything and the status stays
at normal-return. -/
theorem drop_preserves_pending_and_frees (env : Env) (s : HostState)
    (l : List EmacsValue) (hl : env.«protected» = some l) :
    (s.pending.status = SIGNAL ∨ s.pending.status = THROW →
      Env.drop env s =
        { s with freeCalls := s.freeCalls ++ l, freed := s.freed ++ l }) ∧
    (s.pending.status = RETURN →
      Env.drop env s =
        { s with freeCalls := s.freeCalls ++ l, freed := s.freed ++ l }) := by
  obtain ⟨⟨st, a, b⟩, heap, fc, fr, ic, fs, fe⟩ := s
  constructor
  · rintro (h | h) <;> dsimp only at h <;> subst h <;>
      simp [Env.drop, hl, non_local_exit_clear, non_local_exit_signal,
        non_local_exit_throw, foldl_free_of_return, SIGNAL, THROW, RETURN]
  · intro h
    dsimp only at h
    subst h
    simp [Env.drop, hl, foldl_free_of_return, SIGNAL, THROW, RETURN]

/-- C2 witness: teardown under a concrete pending throw releases both rooted
identifiers and restores the very same pending word. -/
theorem drop_preserves_pending_and_frees_witness :
    Env.drop ⟨0, some [.obj 3, .obj 4]⟩
        ⟨⟨THROW, .symv "tag", .obj 9⟩, [], [], [], [], [],
         ⟨SIGNAL, .symv "error", nilValue⟩⟩ =
      ⟨⟨THROW, .symv "tag", .obj 9⟩, [], [.obj 3, .obj 4], [.obj 3, .obj 4], [], [],
       ⟨SIGNAL, .symv "error", nilValue⟩⟩ :=
  (drop_preserves_pending_and_frees ⟨0, some [.obj 3, .obj 4]⟩
    ⟨⟨THROW, .symv "tag", .obj 9⟩, [], [], [], [], [],
     ⟨SIGNAL, .symv "error", nilValue⟩⟩ [.obj 3, .obj 4] rfl).1 (Or.inr rfl)

/-- C9: teardown that reads a status other than signal-pending or
throw-pending — normal-return or any unrecognized code — neither clears nor
restores the pending word and does not abort (the function is total, with no
`panic!` branch, unlike the inbound translator): it issues the release call
for every registered identifier and leaves the status word as it found it
(the host acts on those releases only when the status is normal-return). -/
theorem drop_other_status_keeps_word (env : Env) (s : HostState)
    (l : List EmacsValue) (hl : env.«protected» = some l)
    (h1 : s.pending.status ≠ SIGNAL) (h2 : s.pending.status ≠ THROW) :
    Env.drop env s =
      { s with
        freeCalls := s.freeCalls ++ l,
        freed := if s.pending.status = RETURN then s.freed ++ l else s.freed } := by
  obtain ⟨⟨st, a, b⟩, heap, fc, fr, ic, fs, fe⟩ := s
  dsimp only at h1 h2 ⊢
  by_cases hr : st = RETURN
  · subst hr
    simp [Env.drop, hl, foldl_free_of_return, SIGNAL, THROW, RETURN]
  · simp [Env.drop, hl, h1, h2, hr, foldl_free_of_pending]

/-- C9 witness: teardown under a concrete unrecognized status code issues both
release calls, the host acts on neither, and the status word is untouched. -/
theorem drop_other_status_keeps_word_witness :
    Env.drop ⟨0, some [.obj 3, .obj 4]⟩
        ⟨⟨7, .symv "x", .obj 9⟩, [], [], [], [], [],
         ⟨SIGNAL, .symv "error", nilValue⟩⟩ =
      ⟨⟨7, .symv "x", .obj 9⟩, [], [.obj 3, .obj 4], [], [], [],
       ⟨SIGNAL, .symv "error", nilValue⟩⟩ :=
  drop_other_status_keeps_word ⟨0, some [.obj 3, .obj 4]⟩
    ⟨⟨7, .symv "x", .obj 9⟩, [], [], [], [], [],
     ⟨SIGNAL, .symv "error", nilValue⟩⟩ [.obj 3, .obj 4] rfl
    (by decide) (by decide)

/-- C10: the registry only grows before teardown: rooting appends the new
identifier, and the test-only `free_last_protected` releases the host
reference for the last registered identifier while handing the registry back
unchanged, so a following teardown issues a second release call for that same
identifier (it occurs at least twice in the final release-call log). -/
theorem registry_append_only_and_double_free (env : Env) (s : HostState)
    (v last : EmacsValue) (l : List EmacsValue)
    (hl : env.«protected» = some l) (hlast : l.getLast? = some last)
    (hp : s.pending.status = RETURN) :
    ((Env.root env s v).2.1).«protected» = some (l ++ [.obj s.heap.length]) ∧
    Env.free_last_protected env s =
      some (.ok (), env,
        { s with freeCalls := s.freeCalls ++ [last], freed := s.freed ++ [last] }) ∧
    (Env.drop env
        { s with freeCalls := s.freeCalls ++ [last], freed := s.freed ++ [last] }).freeCalls
      = s.freeCalls ++ [last] ++ l ∧
    2 ≤ (s.freeCalls ++ [last] ++ l).count last := by
  obtain ⟨⟨st, a, b⟩, heap, fc, fr, ic, fs, fe⟩ := s
  dsimp only at hp ⊢
  subst hp
  refine ⟨?_, ?_, ?_, ?_⟩
  · simp [Env.root, hl]
  · simp [Env.free_last_protected, hl, hlast, globalRefFree, free_global_ref,
      handle_exit, RETURN]
  · simp [Env.drop, hl, foldl_free_of_return, SIGNAL, THROW, RETURN]
  · have hmem : last ∈ l := List.mem_of_getLast?_eq_some hlast
    have hpos : 0 < l.count last := List.count_pos_iff.mpr hmem
    have hsplit : (fc ++ [last] ++ l).count last
        = fc.count last + (l.count last + 1) := by
      simp [List.count_append]
    omega

/-- C10 witness: rooting a value appends; freeing the last rooted identifier
leaves the registry intact, and teardown then frees `.obj 4` a second time. -/
theorem registry_append_only_and_double_free_witness :
    ((Env.root ⟨0, some [.obj 3, .obj 4]⟩ cleanState (.obj 8)).2.1).«protected»
        = some [.obj 3, .obj 4, .obj 0] ∧
    Env.free_last_protected ⟨0, some [.obj 3, .obj 4]⟩ cleanState =
      some (.ok (), ⟨0, some [.obj 3, .obj 4]⟩,
        { cleanState with freeCalls := [.obj 4], freed := [.obj 4] }) ∧
    (Env.drop ⟨0, some [.obj 3, .obj 4]⟩
        { cleanState with freeCalls := [.obj 4], freed := [.obj 4] }).freeCalls
      = [.obj 4, .obj 3, .obj 4] ∧
    2 ≤ ([.obj 4, .obj 3, .obj 4] : List EmacsValue).count (.obj 4) := by
  have h := registry_append_only_and_double_free ⟨0, some [.obj 3, .obj 4]⟩
    cleanState (.obj 8) (.obj 4) [.obj 3, .obj 4] rfl rfl rfl
  exact h

/-- C3: the outbound translator: `Ok` returns the raw value with no raise;
`Signal`/`Throw` errors re-raise through the host's signal/throw primitive
with exactly the carried values; `WrongTypeUserPtr` signals the pre-declared
wrong-type symbol with a one-element list holding the string
`"expected: <expected>"` as data; any other error signals the generic
catch-all symbol with its rendered description as the payload. -/
theorem maybe_exit_cases (s : HostState) (v sym d t pv : EmacsValue)
    (expected desc : String)
    (hp : s.pending.status = RETURN) (hf : s.failSchedule = []) :
    maybe_exit s (.ok v) = some (v, s) ∧
    maybe_exit s (.error (.known (.Signal sym d))) =
      some (sym, { s with pending := ⟨SIGNAL, sym, d⟩ }) ∧
    maybe_exit s (.error (.known (.Throw t pv))) =
      some (t, { s with pending := ⟨THROW, t, pv⟩ }) ∧
    maybe_exit s (.error (.known (.WrongTypeUserPtr expected))) =
      some (rust_wrong_type_user_ptr,
        { s with
          heap := s.heap ++
            [.str ("expected: " ++ expected), .listv [.obj s.heap.length]],
          pending := ⟨SIGNAL, rust_wrong_type_user_ptr, .obj (s.heap.length + 1)⟩ }) ∧
    maybe_exit s (.error (.other desc)) =
      some (rust_error,
        { s with
          heap := s.heap ++ [.str desc, .listv [.obj s.heap.length]],
          pending := ⟨SIGNAL, rust_error, .obj (s.heap.length + 1)⟩ }) := by
  obtain ⟨⟨st, a, b⟩, heap, fc, fr, ic, fs, fe⟩ := s
  dsimp only at hp hf ⊢
  subst hp
  subst hf
  refine ⟨rfl, ?_, ?_, ?_, ?_⟩ <;>
    simp [maybe_exit, handle_known, signal_internal, callAlloc, rawAlloc,
      handle_exit, non_local_exit_signal, non_local_exit_throw,
      ErrorKind.display, Error.display, RETURN, SIGNAL, THROW]

/-- C3 witness: the four failure shapes at a concrete state, with the exact
message string for expected type `RefCell<i64>`. -/
theorem maybe_exit_cases_witness :
    maybe_exit cleanState (.ok (.obj 2)) = some (.obj 2, cleanState) ∧
    maybe_exit cleanState (.error (.known (.Signal (.symv "s") (.obj 1)))) =
      some (.symv "s", { cleanState with pending := ⟨SIGNAL, .symv "s", .obj 1⟩ }) ∧
    maybe_exit cleanState (.error (.known (.Throw (.symv "t") (.obj 2)))) =
      some (.symv "t", { cleanState with pending := ⟨THROW, .symv "t", .obj 2⟩ }) ∧
    maybe_exit cleanState (.error (.known (.WrongTypeUserPtr "RefCell<i64>"))) =
      some (rust_wrong_type_user_ptr,
        { cleanState with
          heap := [.str "expected: RefCell<i64>", .listv [.obj 0]],
          pending := ⟨SIGNAL, rust_wrong_type_user_ptr, .obj 1⟩ }) ∧
    maybe_exit cleanState (.error (.other "fail-desc")) =
      some (rust_error,
        { cleanState with
          heap := [.str "fail-desc", .listv [.obj 0]],
          pending := ⟨SIGNAL, rust_error, .obj 1⟩ }) :=
  maybe_exit_cases cleanState (.obj 2) (.symv "s") (.obj 1) (.symv "t") (.obj 2)
    "RefCell<i64>" "fail-desc" rfl rfl

/-- C5: round trip: a pending `Signal{s, d}` (resp. `Throw{t, v}`) captured by
the inbound translator and re-raised through the outbound translator
reinstates an exit status carrying the very same two values — indeed the host
state returns to exactly its original value, with no re-wrapping of either
identifier. -/
theorem exit_error_round_trip (s : HostState) (x : Nat) :
    (s.pending.status = SIGNAL →
      handle_exit s x =
        some (.error (.known (.Signal s.pending.a s.pending.b)),
              non_local_exit_clear s) ∧
      maybe_exit (non_local_exit_clear s)
          (.error (.known (.Signal s.pending.a s.pending.b))) =
        some (s.pending.a, s)) ∧
    (s.pending.status = THROW →
      handle_exit s x =
        some (.error (.known (.Throw s.pending.a s.pending.b)),
              non_local_exit_clear s) ∧
      maybe_exit (non_local_exit_clear s)
          (.error (.known (.Throw s.pending.a s.pending.b))) =
        some (s.pending.a, s)) := by
  obtain ⟨⟨st, a, b⟩, heap, fc, fr, ic, fs, fe⟩ := s
  constructor <;> intro h <;> dsimp only at h <;> subst h <;>
    simp [handle_exit, maybe_exit, handle_known, non_local_exit_clear,
      non_local_exit_signal, non_local_exit_throw, RETURN, SIGNAL, THROW]

/-- C5 witness: the signal round trip at a concrete state restores the exact
pending word. -/
theorem exit_error_round_trip_witness :
    handle_exit signalState (0 : Nat) =
      some (.error (.known (.Signal (.symv "wrong-type-argument") (.obj 5))),
            non_local_exit_clear signalState) ∧
    maybe_exit (non_local_exit_clear signalState)
        (.error (.known (.Signal (.symv "wrong-type-argument") (.obj 5)))) =
      some (.symv "wrong-type-argument", signalState) :=
  (exit_error_round_trip signalState 0).1 rfl

/-- C4 counterexample: a caught unwind whose payload is the re-thrown native
error `WrongTypeUserPtr` is neither a `Signal`/`Throw` nor a `String`, so by
the claim it would have to raise the native-panic symbol with a debug
rendering; the code instead routes every `ErrorKind` payload to
`handle_known`, which here signals the wrong-type symbol. -/
theorem handle_panic_wrong_type_payload_not_rust_panic :
    (handle_panic cleanState (.error (.errorKind (.WrongTypeUserPtr "T")))).map
        (fun r => (r.1, r.2.pending.status, r.2.pending.a)) =
      some (rust_wrong_type_user_ptr, SIGNAL, rust_wrong_type_user_ptr) ∧
    rust_wrong_type_user_ptr ≠ rust_panic := by
  exact ⟨rfl, by decide⟩

/-- C4 amended: a `String` payload is signalled under the native-panic symbol
with the text as the single payload-list element; a payload that is itself a
previously-raised native error is re-raised through the same path as the
outbound translator — `Signal`/`Throw` unchanged via the host's own
primitives, `WrongTypeUserPtr` as a wrong-type signal — rather than wrapped;
any payload that is neither a `String` nor a native error is signalled under
the native-panic symbol with its debug rendering; in each case the unwind
stops at the translator and the host receives a normal value or a well-formed
signal/throw. -/
theorem handle_panic_cases (s : HostState) (v sym d t pv : EmacsValue)
    (msg dbg expected : String)
    (hp : s.pending.status = RETURN) (hf : s.failSchedule = []) :
    handle_panic s (.ok v) = some (v, s) ∧
    handle_panic s (.error (.str msg)) =
      some (rust_panic,
        { s with
          heap := s.heap ++ [.str msg, .listv [.obj s.heap.length]],
          pending := ⟨SIGNAL, rust_panic, .obj (s.heap.length + 1)⟩ }) ∧
    handle_panic s (.error (.errorKind (.Signal sym d))) =
      some (sym, { s with pending := ⟨SIGNAL, sym, d⟩ }) ∧
    handle_panic s (.error (.errorKind (.Throw t pv))) =
      some (t, { s with pending := ⟨THROW, t, pv⟩ }) ∧
    handle_panic s (.error (.errorKind (.WrongTypeUserPtr expected))) =
      some (rust_wrong_type_user_ptr,
        { s with
          heap := s.heap ++
            [.str ("expected: " ++ expected), .listv [.obj s.heap.length]],
          pending := ⟨SIGNAL, rust_wrong_type_user_ptr, .obj (s.heap.length + 1)⟩ }) ∧
    handle_panic s (.error (.otherPayload dbg)) =
      some (rust_panic,
        { s with
          heap := s.heap ++ [.str dbg, .listv [.obj s.heap.length]],
          pending := ⟨SIGNAL, rust_panic, .obj (s.heap.length + 1)⟩ }) := by
  obtain ⟨⟨st, a, b⟩, heap, fc, fr, ic, fs, fe⟩ := s
  dsimp only at hp hf ⊢
  subst hp
  subst hf
  refine ⟨rfl, ?_, ?_, ?_, ?_, ?_⟩ <;>
    simp [handle_panic, handle_known, signal_internal, callAlloc, rawAlloc,
      handle_exit, non_local_exit_signal, non_local_exit_throw,
      ErrorKind.display, RETURN, SIGNAL, THROW]

/-- C4 witness: the panic payload `"boom"` raises the native-panic symbol with
`"boom"` as the single payload-list element, and a re-thrown throw passes
through unchanged. -/
theorem handle_panic_cases_witness :
    handle_panic cleanState (.error (.str "boom")) =
      some (rust_panic,
        { cleanState with
          heap := [.str "boom", .listv [.obj 0]],
          pending := ⟨SIGNAL, rust_panic, .obj 1⟩ }) ∧
    handle_panic cleanState (.error (.errorKind (.Throw (.symv "tag") (.obj 6)))) =
      some (.symv "tag", { cleanState with pending := ⟨THROW, .symv "tag", .obj 6⟩ }) :=
  ⟨(handle_panic_cases cleanState (.obj 0) (.symv "s") (.obj 1) (.symv "tag") (.obj 6)
      "boom" "dbg" "T" rfl rfl).2.1,
   (handle_panic_cases cleanState (.obj 0) (.symv "s") (.obj 1) (.symv "tag") (.obj 6)
      "boom" "dbg" "T" rfl rfl).2.2.2.1⟩

/-- A host state scheduled so that the next fallible host call raises. -/
def failingState : HostState :=
  ⟨⟨RETURN, nilValue, nilValue⟩, [], [], [], [], [true],
   ⟨SIGNAL, .symv "error", nilValue⟩⟩

/-- C6 counterexample: when the panic translator's own raise fails (the host
raises while the message string is being built), `handle_panic` does not
abort: the failure is only logged and the host receives `nil` as a normal
value, with the exit status back at normal-return — the fallback path whose
absence the claim asserts. -/
theorem handle_panic_raise_failure_returns_nil :
    handle_panic failingState (.error (.str "boom")) =
      some (nilValue,
        ⟨⟨RETURN, .symv "error", nilValue⟩, [], [], [], [], [],
         ⟨SIGNAL, .symv "error", nilValue⟩⟩) := rfl

/-- C6 amended: an exit status other than normal-return, signal-pending or
throw-pending read by the inbound translator is fatal (abort with diagnostic),
and a failed raise aborts in the outbound translator — both in its generic
catch-all path and in the wrong-type path of `handle_known` — but the panic
translator's final raise is the one exception: on failure it logs the error
and hands the host `nil` with the status back at normal-return. -/
theorem protocol_violation_aborts (s sf : HostState) (x : Nat)
    (desc expected msg : String)
    (h1 : s.pending.status ≠ RETURN) (h2 : s.pending.status ≠ SIGNAL)
    (h3 : s.pending.status ≠ THROW)
    (hp : sf.pending.status = RETURN) (hf : sf.failSchedule = [true])
    (hfe : sf.failExit.status = SIGNAL) :
    handle_exit s x = none ∧
    maybe_exit sf (.error (.other desc)) = none ∧
    maybe_exit sf (.error (.known (.WrongTypeUserPtr expected))) = none ∧
    (∃ s1, handle_panic sf (.error (.str msg)) = some (nilValue, s1) ∧
      s1.pending.status = RETURN) := by
  obtain ⟨⟨st, a, b⟩, heap, fc, fr, ic, fs, fe⟩ := sf
  dsimp only at hp hf ⊢
  subst hp
  subst hf
  obtain ⟨fest, fea, feb⟩ := fe
  dsimp only at hfe
  subst hfe
  refine ⟨?_, ?_, ?_, ?_⟩
  · simp [handle_exit, h1, h2, h3]
  · simp [maybe_exit, signal_internal, callAlloc, rawAlloc, handle_exit,
      non_local_exit_clear, RETURN, SIGNAL, THROW]
  · simp [maybe_exit, handle_known, signal_internal, callAlloc, rawAlloc,
      handle_exit, non_local_exit_clear, ErrorKind.display, RETURN, SIGNAL, THROW]
  · refine ⟨⟨⟨RETURN, fea, feb⟩, heap, fc, fr, ic, [], ⟨SIGNAL, fea, feb⟩⟩, ?_, rfl⟩
    simp [handle_panic, signal_internal, callAlloc, rawAlloc, handle_exit,
      non_local_exit_clear, RETURN, SIGNAL, THROW]

/-- C6 witness: all four behaviors at concrete states — the unrecognized
status code 7 aborts the inbound translator, a failed raise aborts both
outbound paths, and the panic translator falls back to `nil`. -/
theorem protocol_violation_aborts_witness :
    handle_exit ⟨⟨7, .symv "x", .obj 9⟩, [], [], [], [], [],
        ⟨SIGNAL, .symv "error", nilValue⟩⟩ (5 : Nat) = none ∧
    maybe_exit failingState (.error (.other "d")) = none ∧
    maybe_exit failingState (.error (.known (.WrongTypeUserPtr "T"))) = none ∧
    (∃ s1, handle_panic failingState (.error (.str "m")) = some (nilValue, s1) ∧
      s1.pending.status = RETURN) :=
  protocol_violation_aborts
    ⟨⟨7, .symv "x", .obj 9⟩, [], [], [], [], [],
     ⟨SIGNAL, .symv "error", nilValue⟩⟩ failingState 5 "d" "T" "m"
    (by decide) (by decide) (by decide) rfl rfl rfl
